import Mathlib

/-!
Verification of the security-validation and guarded-fetch layer of
Figma-Context-MCP.

The validators (`validateUrl`, `validateHeaders`, `validateCurlCommand`) are
translated from `src/utils/security-validation.ts`.  Strings are modelled as
Lean `String` and inspected through their underlying character lists; the
JavaScript regular expressions are translated into executable recursive
matchers over `List Char` that mirror the regex search-and-backtracking
semantics.  Throwing is modelled with `Except String Unit`: `Except.error m`
is a thrown `Error(m)` and `Except.ok ()` is a normal return.
-/

deriving instance DecidableEq for Except

/-- Characters rejected anywhere in a URL; translation of the regex character
class used in `validateUrl`. -/
def dangerousUrlChar (c : Char) : Bool :=
  c == ';' || c == '&' || c == '|' || c == '\x60' || c == '$' || c == '(' ||
  c == ')' || c == '\x7b' || c == '\x7d' || c == '[' || c == ']' ||
  c == '\\' || c == '\'' || c == '"' || c == '<' || c == '>'

/-- Characters rejected in a header key; the URL set plus newline and
carriage return, translating the key regex in `validateHeaders`. -/
def dangerousKeyChar (c : Char) : Bool :=
  dangerousUrlChar c || c == '\n' || c == '\r'

/-- Characters rejected in a header value; the narrower class that omits
semicolon, ampersand, pipe and the quote characters, translating the value
regex in `validateHeaders`. -/
def dangerousValueChar (c : Char) : Bool :=
  c == '\x60' || c == '$' || c == '(' || c == ')' || c == '\x7b' ||
  c == '\x7d' || c == '[' || c == ']' || c == '\\' || c == '<' || c == '>' ||
  c == '\n' || c == '\r'

/-- The allow-listed Figma domains, as in the source constant. -/
def ALLOWED_FIGMA_DOMAINS : List String :=
  ["api.figma.com", "figma.com", "s3-alpha-sig.figma.com", "s3-alpha.figma.com"]

def MAX_URL_LENGTH : Nat := 2048

def MAX_HEADER_KEY_LENGTH : Nat := 256

def MAX_HEADER_VALUE_LENGTH : Nat := 8192

/-- A single-quote character as a string, used to assemble messages and
commands without apostrophes inside string literals. -/
def squote : String := String.mk ['\'']

/-- Membership scan over a character list. -/
def listHas (x : Char) : List Char → Bool
  | [] => false
  | c :: cs => c == x || listHas x cs

/-- Occurrence count of a character, used for the quote-counting regex
lookaheads. -/
def countChar (x : Char) : List Char → Nat
  | [] => 0
  | c :: cs => (if c == x then 1 else 0) + countChar x cs

/-- Search combinator: does `p` match at some suffix position of the list?
This mirrors the unanchored `RegExp.test` search over all start positions. -/
def scanAny (p : List Char → Bool) : List Char → Bool
  | [] => false
  | c :: cs => p (c :: cs) || scanAny p cs

/-- Translation of the JavaScript `String.prototype.trim`. -/
def jsTrim (l : List Char) : List Char :=
  ((l.dropWhile Char.isWhitespace).reverse.dropWhile Char.isWhitespace).reverse

/-- Translation of `String.prototype.startsWith` on character lists. -/
def listStartsWith (l pre : List Char) : Bool :=
  pre.isPrefixOf l

/-- Lowercasing of a string, modelling `String.prototype.toLowerCase` on the
ASCII hostnames this subsystem handles. -/
def lowerString (s : String) : String :=
  String.mk (s.data.map Char.toLower)

/-- Translation of `String.prototype.endsWith`. -/
def jsEndsWith (s suffix : String) : Bool :=
  suffix.data.isSuffixOf s.data

/-! ## Model of the platform URL parser

`validateUrl` calls the platform constructor `new URL(url)` and reads its
`protocol` and `hostname` fields.  That parser is a platform collaborator,
not code of this repository. -/

/-- Result of a successful platform URL parse, restricted to the two fields
`validateUrl` consumes. -/
structure ParsedUrl where
  protocol : String
  hostname : String
deriving DecidableEq

/-- Scheme characters after the first: ASCII alphanumeric, plus, minus, dot. -/
def isSchemeChar (c : Char) : Bool :=
  c.isAlpha || c.isDigit || c == '+' || c == '-' || c == '.'

/-- Splits a leading `scheme:` off the character list: the first character
must be an ASCII letter, subsequent scheme characters run up to a colon. -/
def splitScheme (l : List Char) : Option (List Char × List Char) :=
  match l with
  | [] => none
  | c :: _ =>
    if c.isAlpha then
      match l.dropWhile isSchemeChar with
      | ':' :: rest => some (l.takeWhile isSchemeChar, rest)
      | _ => none
    else none

/-- Suffix of the list after its last at-sign; the whole list when no
at-sign occurs.  Strips the userinfo part of a URL authority. -/
def afterLastAt (l : List Char) : List Char :=
  (l.reverse.takeWhile (fun c => !(c == '@'))).reverse

/-- Special schemes of the WHATWG URL standard that require a non-empty
host. -/
def requiresHost (scheme : List Char) : Bool :=
  scheme == "http".data || scheme == "https".data || scheme == "ftp".data ||
  scheme == "ws".data || scheme == "wss".data

/-- Modelled from the spec: the platform WHATWG `URL` parser invoked as
`new URL(url)` (a collaborator outside this repository), restricted to the
fields `validateUrl` consumes.  The scheme is lowercased and must be an
ASCII letter followed by scheme characters and a colon; a `//` introduces an
authority whose host (userinfo and port stripped, lowercased) becomes
`hostname`; special schemes demand a non-empty host, and special schemes
written without `//` are treated as parse failures; other schemes without an
authority parse with an empty hostname. -/
def parseUrl (url : String) : Option ParsedUrl :=
  match splitScheme url.data with
  | none => none
  | some (scheme, rest) =>
    let schemeL := scheme.map Char.toLower
    match rest with
    | '/' :: '/' :: afterSlashes =>
      let authority :=
        afterSlashes.takeWhile (fun c => !(c == '/') && !(c == '?') && !(c == '#'))
      let hostPort := afterLastAt authority
      let host := hostPort.takeWhile (fun c => !(c == ':'))
      if host = [] then
        if requiresHost schemeL then none
        else some ⟨String.mk (schemeL ++ [':']), ""⟩
      else some ⟨String.mk (schemeL ++ [':']), String.mk (host.map Char.toLower)⟩
    | _ =>
      if requiresHost schemeL then none
      else some ⟨String.mk (schemeL ++ [':']), ""⟩

/-- Local allow-list test of `validateUrl`: the hostname equals an
allow-listed domain or ends with a dot followed by one. -/
def isAllowedDomain (hostname : String) : Bool :=
  ALLOWED_FIGMA_DOMAINS.any
    (fun domain => hostname == domain || jsEndsWith hostname (String.append "." domain))

/-- Translation of `validateUrl` from `security-validation.ts`: emptiness,
length ceiling, platform parse, protocol allow-list, raw-string dangerous
characters, then the domain allow-list. -/
def validateUrl (url : String) : Except String Unit :=
  if url = "" then Except.error "URL must be a non-empty string"
  else if url.data.length > MAX_URL_LENGTH then
    Except.error "URL exceeds maximum length of 2048 characters"
  else
    match parseUrl url with
    | none => Except.error "Invalid URL format"
    | some parsedUrl =>
      if ¬ (parsedUrl.protocol = "https:" ∨ parsedUrl.protocol = "http:") then
        Except.error "Only HTTP and HTTPS URLs are allowed"
      else if url.data.any dangerousUrlChar then
        Except.error "URL contains potentially dangerous characters"
      else if isAllowedDomain (lowerString parsedUrl.hostname) then Except.ok ()
      else
        Except.error
          ("URL domain " ++ squote ++ lowerString parsedUrl.hostname ++ squote ++
            " is not in the allowed list")


/-! ## Header validation

Translation of `validateHeaders`.  The header map is modelled as an optional
association list (`Object.entries` iteration order); `undefined` is `none`.
The four injection-pattern regexes are translated into the matchers below;
the source tests them in order with one shared error message, which is the
single disjunction here. -/

/-- Head character of a JavaScript identifier. -/
def isIdentStart (c : Char) : Bool :=
  c.isAlpha || c == '_'

/-- Tail character of a JavaScript identifier. -/
def isIdentChar (c : Char) : Bool :=
  c.isAlphanum || c == '_'

/-- Matcher for the regex tail `\s*=`: optional whitespace then an equals
sign. -/
def wsEq : List Char → Bool
  | [] => false
  | c :: cs => c == '=' || (c.isWhitespace && wsEq cs)

/-- Matcher for the regex tail `[a-zA-Z0-9_]*\s*=` after the identifier
head: identifier characters, optional whitespace, then an equals sign. -/
def identTailEq : List Char → Bool
  | [] => false
  | c :: cs => c == '=' || (isIdentChar c && identTailEq cs) || (c.isWhitespace && wsEq cs)

/-- Matcher for the regex tail `\s*[a-zA-Z_][a-zA-Z0-9_]*\s*=` after a
semicolon: optional whitespace, an identifier, optional whitespace, an
equals sign. -/
def wsIdentEq : List Char → Bool
  | [] => false
  | c :: cs => (isIdentStart c && identTailEq cs) || (c.isWhitespace && wsIdentEq cs)

/-- Anchored form of the variable-assignment regex
`;\s*[a-zA-Z_][a-zA-Z0-9_]*\s*=` at one position. -/
def semiAssignAt : List Char → Bool
  | [] => false
  | c :: cs => c == ';' && wsIdentEq cs

/-- Header-value injection pattern 1: variable assignment after a
semicolon. -/
def valueSemiAssign (l : List Char) : Bool :=
  scanAny semiAssignAt l

/-- Anchored form of `&&(?![^"]*"[^"]*$)` at one position: a double
ampersand whose suffix does not contain exactly one double quote (the
negative lookahead `[^"]*"[^"]*$` holds precisely when the suffix has one
double quote). -/
def andAndNotQuotedAt : List Char → Bool
  | a :: b :: cs => a == '&' && b == '&' && !(countChar '"' cs == 1)
  | _ => false

/-- Header-value injection pattern 2: command chaining `&&` not inside
quotes. -/
def valueAndAnd (l : List Char) : Bool :=
  scanAny andAndNotQuotedAt l

/-- Anchored form of `\|\|(?![^"]*"[^"]*$)` at one position. -/
def orOrNotQuotedAt : List Char → Bool
  | a :: b :: cs => a == '|' && b == '|' && !(countChar '"' cs == 1)
  | _ => false

/-- Header-value injection pattern 3: command chaining `||` not inside
quotes. -/
def valueOrOr (l : List Char) : Bool :=
  scanAny orOrNotQuotedAt l

/-- Anchored form of `\$\(|\$\{` at one position: a dollar sign followed by
an opening parenthesis or brace. -/
def dollarSubAt : List Char → Bool
  | a :: b :: _ => a == '$' && (b == '(' || b == '\x7b')
  | _ => false

/-- Header-value injection pattern 4: command-substitution syntax. -/
def valueDollarSub (l : List Char) : Bool :=
  scanAny dollarSubAt l

/-- Translation of the per-entry body of the `validateHeaders` loop. -/
def validateHeaderPair (k v : String) : Except String Unit :=
  if k = "" then Except.error "Header key must be a non-empty string"
  else if v = "" then Except.error "Header value must be a non-empty string"
  else if k.data.length > MAX_HEADER_KEY_LENGTH then
    Except.error "Header key exceeds maximum length of 256 characters"
  else if v.data.length > MAX_HEADER_VALUE_LENGTH then
    Except.error "Header value exceeds maximum length of 8192 characters"
  else if k.data.any dangerousKeyChar then
    Except.error "Header key contains potentially dangerous characters"
  else if v.data.any dangerousValueChar then
    Except.error "Header value contains potentially dangerous characters"
  else if valueSemiAssign v.data || valueAndAnd v.data || valueOrOr v.data ||
      valueDollarSub v.data then
    Except.error "Header value contains potential injection pattern"
  else Except.ok ()

/-- The `validateHeaders` loop over the entries of the header map. -/
def validateHeadersList : List (String × String) → Except String Unit
  | [] => Except.ok ()
  | (k, v) :: rest =>
    match validateHeaderPair k v with
    | Except.error m => Except.error m
    | Except.ok _ => validateHeadersList rest

/-- Translation of `validateHeaders`: an absent map is accepted, otherwise
every entry is validated in iteration order. -/
def validateHeaders : Option (List (String × String)) → Except String Unit
  | none => Except.ok ()
  | some headers => validateHeadersList headers

/-! ## Curl command validation

Translation of `validateCurlCommand` and its six dangerous-pattern
regexes. -/

/-- Matcher for the regex tail `\s*[^'"]`: optional whitespace then one
character that is neither a single nor a double quote (with regex
backtracking, so a whitespace character can itself serve as the final
character). -/
def matchWsThenNonquote : List Char → Bool
  | [] => false
  | c :: cs => (!(c == '\'') && !(c == '"')) || (c.isWhitespace && matchWsThenNonquote cs)

/-- Anchored form of `;\s*[^'"]` at one position. -/
def semiSepAt : List Char → Bool
  | [] => false
  | c :: cs => c == ';' && matchWsThenNonquote cs

/-- Curl pattern 1: command separator outside quotes. -/
def testSemiSep (l : List Char) : Bool :=
  scanAny semiSepAt l

/-- Anchored form of `\|\s*[^'"]` at one position. -/
def pipeSepAt : List Char → Bool
  | [] => false
  | c :: cs => c == '|' && matchWsThenNonquote cs

/-- Curl pattern 2: pipe outside quotes. -/
def testPipeSep (l : List Char) : Bool :=
  scanAny pipeSepAt l

/-- Anchored form of `&&\s*[^'"]` at one position. -/
def andAndSepAt : List Char → Bool
  | a :: b :: cs => a == '&' && b == '&' && matchWsThenNonquote cs
  | _ => false

/-- Curl pattern 3: and operator outside quotes. -/
def testAndAndSep (l : List Char) : Bool :=
  scanAny andAndSepAt l

/-- Anchored form of `\|\|\s*[^'"]` at one position. -/
def orOrSepAt : List Char → Bool
  | a :: b :: cs => a == '|' && b == '|' && matchWsThenNonquote cs
  | _ => false

/-- Curl pattern 4: or operator outside quotes. -/
def testOrOrSep (l : List Char) : Bool :=
  scanAny orOrSepAt l

/-- Anchored form of the backtick-pair regex at one position: an opening
backtick with a later closing backtick. -/
def backtickPairAt : List Char → Bool
  | [] => false
  | c :: cs => c == '\x60' && listHas '\x60' cs

/-- Curl pattern 5: a pair of backticks (command substitution). -/
def testBacktickPair (l : List Char) : Bool :=
  scanAny backtickPairAt l

/-- Anchored form of `\$\([^)]*\)` at one position: a dollar sign, an
opening parenthesis, and a later closing parenthesis. -/
def dollarParenAt : List Char → Bool
  | a :: b :: cs => a == '$' && b == '(' && listHas ')' cs
  | _ => false

/-- Curl pattern 6: `$()` command substitution. -/
def testDollarParen (l : List Char) : Bool :=
  scanAny dollarParenAt l

/-- The disjunction of the six dangerous curl patterns; the source tests
them in a loop with one shared error message. -/
def anyCurlDanger (l : List Char) : Bool :=
  testSemiSep l || testPipeSep l || testAndAndSep l || testOrOrSep l ||
  testBacktickPair l || testDollarParen l

/-- Translation of `validateCurlCommand`: non-empty, trimmed prefix
`curl `, and none of the six dangerous patterns. -/
def validateCurlCommand (command : String) : Except String Unit :=
  if command = "" then Except.error "Command must be a non-empty string"
  else if !(listStartsWith (jsTrim command.data) ("curl ".data)) then
    Except.error "Command must start with curl"
  else if anyCurlDanger command.data then
    Except.error "Curl command contains potentially dangerous patterns"
  else Except.ok ()

/-! ## Unquoted characters per shell quoting

A reference notion used to compare the structural regex checks with the
spec's description of an unquoted separator. -/

/-- Characters of a command that lie outside every single- or double-quoted
region, by a scan tracking quote state (first flag: inside single quotes;
second flag: inside double quotes). -/
def scanUnquoted : Bool → Bool → List Char → List Char
  | true, d, c :: cs => if c = '\'' then scanUnquoted false d cs else scanUnquoted true d cs
  | false, true, c :: cs => if c = '"' then scanUnquoted false false cs else scanUnquoted false true cs
  | false, false, c :: cs =>
    if c = '\'' then scanUnquoted true false cs
    else if c = '"' then scanUnquoted false true cs
    else c :: scanUnquoted false false cs
  | _, _, [] => []

/-- Does the command contain a semicolon outside all shell quotes?  This is
the spec's notion of an unquoted `;` separator. -/
def hasUnquotedSemi (s : String) : Bool :=
  listHas ';' (scanUnquoted false false s.data)

/-! ## Retrying fetcher

The file `src/utils/fetch-with-retry.ts` is exercised by the repository's
security tests but is not part of the sources available here, so the
fetcher is modelled from the spec (section 4.2).  The native fetch and
shell-exec collaborators are oracles indexed by the attempt number, and the
model counts how many times each collaborator is invoked. -/

/-- Outcomes of the two external collaborators, per attempt index: the
native fetch primitive and the shell-execution primitive.  `Except.ok`
carries a response body or captured stdout, `Except.error` a transport
failure message. -/
structure FetchCollab where
  fetchOutcome : Nat → Except String String
  execOutcome : Nat → Except String String

/-- Observable result of one logical `fetchWithRetry` call: the final
outcome and the number of invocations of each collaborator. -/
structure FetchTrace where
  result : Except String String
  fetchCalls : Nat
  execCalls : Nat
deriving DecidableEq

/-- Modelled from the spec: assembly of the fallback curl command line, with
each header rendered as a single-quoted `-H` token and the URL quoted as a
single token. -/
def buildCurlCommand (url : String) (headers : Option (List (String × String))) : String :=
  let headerFlags :=
    match headers with
    | none => ""
    | some hs =>
      String.join (hs.map (fun kv => "-H " ++ squote ++ kv.1 ++ ": " ++ kv.2 ++ squote ++ " "))
  "curl -s -S --fail-with-body -L " ++ headerFlags ++ squote ++ url ++ squote

/-- Modelled from the spec: the attempt loop of the retrying fetcher.  Each
attempt tries native fetch; on fetch failure it validates the assembled
command (a failure there is a fatal security error) and runs the
shell-exec collaborator; on exec failure it retries while attempts remain,
carrying the last observed underlying error, which is surfaced unwrapped
once the budget is exhausted. -/
def runAttempts (env : FetchCollab) (cmd : String) : Nat → Nat → String → FetchTrace
  | _, 0, lastErr => ⟨Except.error lastErr, 0, 0⟩
  | i, fuel + 1, _ =>
    match env.fetchOutcome i with
    | Except.ok body => ⟨Except.ok body, 1, 0⟩
    | Except.error _ =>
      match validateCurlCommand cmd with
      | Except.error m => ⟨Except.error ("Security validation failed: " ++ m), 1, 0⟩
      | Except.ok _ =>
        match env.execOutcome i with
        | Except.ok stdout => ⟨Except.ok stdout, 1, 1⟩
        | Except.error execErr =>
          let t := runAttempts env cmd (i + 1) fuel execErr
          ⟨t.result, t.fetchCalls + 1, t.execCalls + 1⟩

/-- Modelled from the spec: `fetchWithRetry`.  URL and header validation
gate the whole call: any validation failure is surfaced immediately as
`Security validation failed: ` followed by the underlying message, with no
collaborator invocation; otherwise up to `maxAttempts` attempts are run. -/
def fetchWithRetry (url : String) (headers : Option (List (String × String)))
    (maxAttempts : Nat) (env : FetchCollab) : FetchTrace :=
  match validateUrl url with
  | Except.error m => ⟨Except.error ("Security validation failed: " ++ m), 0, 0⟩
  | Except.ok _ =>
    match validateHeaders headers with
    | Except.error m => ⟨Except.error ("Security validation failed: " ++ m), 0, 0⟩
    | Except.ok _ =>
      runAttempts env (buildCurlCommand url headers) 0 maxAttempts "No attempts made"

/-! ## Helper lemmas -/

theorem scanAny_append (p : List Char → Bool) (l1 l2 : List Char)
    (h : scanAny p l2 = true) : scanAny p (l1 ++ l2) = true := by
  induction l1 with
  | nil => simpa using h
  | cons c cs ih => simp [scanAny, ih]

theorem listHas_append_cons (x : Char) (l1 l2 : List Char) :
    listHas x (l1 ++ x :: l2) = true := by
  induction l1 with
  | nil => simp [listHas]
  | cons c cs ih => simp [listHas, ih]

theorem matchWsThenNonquote_cons (c : Char) (cs : List Char)
    (h1 : c ≠ '\'') (h2 : c ≠ '"') : matchWsThenNonquote (c :: cs) = true := by
  simp [matchWsThenNonquote, h1, h2]

theorem parseUrl_empty : parseUrl "" = none := by
  decide

/-- Reduction of `validateUrl` on a string that passes the early checks:
the outcome is decided by the domain allow-list. -/
theorem validateUrl_eval (url : String) (p : ParsedUrl)
    (hlen : ¬ url.data.length > MAX_URL_LENGTH)
    (hparse : parseUrl url = some p)
    (hprot : p.protocol = "https:" ∨ p.protocol = "http:")
    (hchar : url.data.any dangerousUrlChar = false) :
    validateUrl url =
      (if isAllowedDomain (lowerString p.hostname) then Except.ok ()
       else Except.error ("URL domain " ++ squote ++ lowerString p.hostname ++ squote ++
         " is not in the allowed list")) := by
  have hne : url ≠ "" := by
    intro h
    rw [h, parseUrl_empty] at hparse
    cases hparse
  unfold validateUrl
  rw [if_neg hne, if_neg hlen]
  simp only [hparse]
  rw [if_neg (not_not_intro hprot), if_neg (by simp [hchar])]

/-! ## Claim C8 -/

/-- Claim C8: every string longer than 2048 characters is rejected by
`validateUrl` with the length message, regardless of content; the length
ceiling is checked before the URL is parsed, so even an unparseable
overlong string receives the length message. -/
theorem c8_url_length_thm (url : String) (h : url.data.length > 2048) :
    validateUrl url = Except.error "URL exceeds maximum length of 2048 characters" := by
  have hne : url ≠ "" := by
    intro he
    rw [he] at h
    exact absurd h (by decide)
  unfold validateUrl
  rw [if_neg hne, if_pos (show url.data.length > MAX_URL_LENGTH from h)]

/-- Witness for C8: a concrete 2049-character string (which is not a
parseable URL) receives the length message. -/
theorem c8_url_length_witness :
    validateUrl (String.mk (List.replicate 2049 'a')) =
      Except.error "URL exceeds maximum length of 2048 characters" :=
  c8_url_length_thm (String.mk (List.replicate 2049 'a'))
    (by show (List.replicate 2049 'a').length > 2048; rw [List.length_replicate]; decide)

/-! ## Claim C2 -/

/-- Counterexample to claim C2 as stated: the one-character string of a
semicolon contains a character of the dangerous set, yet `validateUrl`
fails with the format message rather than the dangerous-characters message,
because the platform parse runs before the character check. -/
theorem c2_url_dangerous_counterexample :
    (";" : String).data.any dangerousUrlChar = true ∧
    validateUrl ";" = Except.error "Invalid URL format" ∧
    "Invalid URL format" ≠ "URL contains potentially dangerous characters" :=
  ⟨by decide, by decide, by decide⟩

/-- Claim C2 (amended): for every string within the length ceiling that the
platform parser accepts with an http or https protocol, the presence of any
dangerous character in the raw, unparsed string makes `validateUrl` fail
with the dangerous-characters message; strings rejected by an earlier check
(emptiness, length, parse failure, protocol) surface that earlier message
instead. -/
theorem c2_url_dangerous_thm (url : String) (p : ParsedUrl)
    (hlen : ¬ url.data.length > MAX_URL_LENGTH)
    (hparse : parseUrl url = some p)
    (hprot : p.protocol = "https:" ∨ p.protocol = "http:")
    (hchar : url.data.any dangerousUrlChar = true) :
    validateUrl url = Except.error "URL contains potentially dangerous characters" := by
  have hne : url ≠ "" := by
    intro he
    rw [he, parseUrl_empty] at hparse
    cases hparse
  unfold validateUrl
  rw [if_neg hne, if_neg hlen]
  simp only [hparse]
  rw [if_neg (not_not_intro hprot), if_pos hchar]

/-- Witness for C2 (amended): a URL that parses with an allow-listed host
is still rejected because the raw string carries a semicolon in its path. -/
theorem c2_url_dangerous_witness :
    validateUrl "https://api.figma.com/a;b" =
      Except.error "URL contains potentially dangerous characters" :=
  c2_url_dangerous_thm "https://api.figma.com/a;b" ⟨"https:", "api.figma.com"⟩
    (by decide) (by decide) (Or.inl rfl) (by decide)

/-! ## Claim C4 -/

/-- Claim C4: for every string within the length ceiling that parses as an
http/https URL and contains no dangerous character, `validateUrl` returns
normally exactly when the lower-cased hostname equals an allow-listed
domain or ends with a dot followed by one, and otherwise fails with the
domain-not-allowed message naming the hostname. -/
theorem c4_domain_allowlist_thm (url : String) (p : ParsedUrl)
    (hlen : ¬ url.data.length > MAX_URL_LENGTH)
    (hparse : parseUrl url = some p)
    (hprot : p.protocol = "https:" ∨ p.protocol = "http:")
    (hchar : url.data.any dangerousUrlChar = false) :
    (validateUrl url = Except.ok () ↔ isAllowedDomain (lowerString p.hostname) = true) ∧
    (isAllowedDomain (lowerString p.hostname) = false →
      validateUrl url =
        Except.error ("URL domain " ++ squote ++ lowerString p.hostname ++ squote ++
          " is not in the allowed list")) := by
  rw [validateUrl_eval url p hlen hparse hprot hchar]
  constructor
  · by_cases hd : isAllowedDomain (lowerString p.hostname) = true
    · simp [hd]
    · simp [hd]
  · intro hd
    simp [hd]

/-- Witness for C4: an allow-listed host is accepted (and, for the same
theorem, `evil.com` would fall in the failing branch). -/
theorem c4_domain_allowlist_witness :
    validateUrl "https://api.figma.com/v1/files/abc" = Except.ok () :=
  (c4_domain_allowlist_thm "https://api.figma.com/v1/files/abc" ⟨"https:", "api.figma.com"⟩
    (by decide) (by decide) (Or.inl rfl) (by decide)).1.mpr (by decide)

/-! ## Claim C10 -/

/-- Claim C10: a string within the length ceiling that parses as an
http/https URL with an allow-listed hostname and contains no literal
dangerous character passes `validateUrl`, even when the path or query
percent-encodes dangerous characters; only literal occurrences are
checked. -/
theorem c10_percent_encoded_thm (url : String) (p : ParsedUrl)
    (hlen : ¬ url.data.length > MAX_URL_LENGTH)
    (hparse : parseUrl url = some p)
    (hprot : p.protocol = "https:" ∨ p.protocol = "http:")
    (hchar : url.data.any dangerousUrlChar = false)
    (hdom : isAllowedDomain (lowerString p.hostname) = true) :
    validateUrl url = Except.ok () := by
  rw [validateUrl_eval url p hlen hparse hprot hchar, if_pos hdom]

/-- Witness for C10: a URL whose path percent-encodes a semicolon (`%3B`)
and a command substitution opener (`%24%28`) is accepted. -/
theorem c10_percent_encoded_witness :
    listHas '%' ("https://api.figma.com/x%3B%24%28y" : String).data = true ∧
    validateUrl "https://api.figma.com/x%3B%24%28y" = Except.ok () :=
  ⟨by decide,
    c10_percent_encoded_thm "https://api.figma.com/x%3B%24%28y" ⟨"https:", "api.figma.com"⟩
      (by decide) (by decide) (Or.inl rfl) (by decide) (by decide)⟩

/-! ## Header claim infrastructure -/

/-- Did a validator call throw? -/
def isErr : Except String Unit → Bool
  | Except.error _ => true
  | Except.ok _ => false

/-- An input-shape violation of a single header entry: empty key, empty
value, overlong key, or overlong value. -/
def shapeViolation (k v : String) : Prop :=
  k = "" ∨ v = "" ∨ k.data.length > 256 ∨ v.data.length > 8192

/-- A header entry with a shape violation never passes the per-entry
validation. -/
theorem validateHeaderPair_err_of_shape (k v : String) (h : shapeViolation k v) :
    isErr (validateHeaderPair k v) = true := by
  unfold validateHeaderPair
  by_cases h1 : k = ""
  · rw [if_pos h1]; rfl
  · rw [if_neg h1]
    by_cases h2 : v = ""
    · rw [if_pos h2]; rfl
    · rw [if_neg h2]
      by_cases h3 : k.data.length > MAX_HEADER_KEY_LENGTH
      · rw [if_pos h3]; rfl
      · rw [if_neg h3]
        by_cases h4 : v.data.length > MAX_HEADER_VALUE_LENGTH
        · rw [if_pos h4]; rfl
        · rcases h with h | h | h | h
          · exact absurd h h1
          · exact absurd h h2
          · exact absurd h h3
          · exact absurd h h4

/-- The header loop throws whenever some entry has a shape violation. -/
theorem validateHeadersList_err_of_mem (hs : List (String × String)) (k v : String)
    (hmem : (k, v) ∈ hs) (hshape : shapeViolation k v) :
    isErr (validateHeadersList hs) = true := by
  induction hs with
  | nil => cases hmem
  | cons head rest ih =>
    obtain ⟨k0, v0⟩ := head
    cases hp : validateHeaderPair k0 v0 with
    | error m => simp [validateHeadersList, hp, isErr]
    | ok u =>
      rcases List.mem_cons.mp hmem with heq | hmem2
      · have hk : k = k0 := congrArg Prod.fst heq
        have hv : v = v0 := congrArg Prod.snd heq
        rw [← hk, ← hv] at hp
        have hx := validateHeaderPair_err_of_shape k v hshape
        rw [hp] at hx
        cases hx
      · simp only [validateHeadersList, hp]
        exact ih hmem2

/-! ## Claim C7 -/

/-- Claim C7 (amended): `validateHeaders` of an absent map returns
normally; any map containing an entry with an empty or overlong key or
value fails; and the message names the specific violated constraint when
the offending entry is the first entry of the map (for later entries an
earlier entry may fail first with its own message, which is what the
counterexample forces). -/
theorem c7_headers_shape_thm :
    validateHeaders none = Except.ok () ∧
    (∀ hs k v, (k, v) ∈ hs → shapeViolation k v →
      isErr (validateHeaders (some hs)) = true) ∧
    (∀ k v rest, k = "" →
      validateHeaders (some ((k, v) :: rest)) =
        Except.error "Header key must be a non-empty string") ∧
    (∀ k v rest, k ≠ "" → v = "" →
      validateHeaders (some ((k, v) :: rest)) =
        Except.error "Header value must be a non-empty string") ∧
    (∀ k v rest, k ≠ "" → v ≠ "" → k.data.length > 256 →
      validateHeaders (some ((k, v) :: rest)) =
        Except.error "Header key exceeds maximum length of 256 characters") ∧
    (∀ k v rest, k ≠ "" → v ≠ "" → ¬ k.data.length > 256 → v.data.length > 8192 →
      validateHeaders (some ((k, v) :: rest)) =
        Except.error "Header value exceeds maximum length of 8192 characters") := by
  refine ⟨rfl, ?_, ?_, ?_, ?_, ?_⟩
  · intro hs k v hmem hshape
    exact validateHeadersList_err_of_mem hs k v hmem hshape
  · intro k v rest hk
    have hp : validateHeaderPair k v = Except.error "Header key must be a non-empty string" := by
      unfold validateHeaderPair
      rw [if_pos hk]
    simp [validateHeaders, validateHeadersList, hp]
  · intro k v rest hk hv
    have hp : validateHeaderPair k v = Except.error "Header value must be a non-empty string" := by
      unfold validateHeaderPair
      rw [if_neg hk, if_pos hv]
    simp [validateHeaders, validateHeadersList, hp]
  · intro k v rest hk hv hlen
    have hp : validateHeaderPair k v =
        Except.error "Header key exceeds maximum length of 256 characters" := by
      unfold validateHeaderPair
      rw [if_neg hk, if_neg hv, if_pos (show k.data.length > MAX_HEADER_KEY_LENGTH from hlen)]
    simp [validateHeaders, validateHeadersList, hp]
  · intro k v rest hk hv hklen hvlen
    have hp : validateHeaderPair k v =
        Except.error "Header value exceeds maximum length of 8192 characters" := by
      unfold validateHeaderPair
      rw [if_neg hk, if_neg hv,
        if_neg (show ¬ k.data.length > MAX_HEADER_KEY_LENGTH from hklen),
        if_pos (show v.data.length > MAX_HEADER_VALUE_LENGTH from hvlen)]
    simp [validateHeaders, validateHeadersList, hp]

/-- Witness for C7 at concrete inputs: a singleton map with an empty key
fails. -/
theorem c7_headers_shape_witness :
    isErr (validateHeaders (some [("", "v")])) = true :=
  c7_headers_shape_thm.2.1 [("", "v")] "" "v" (List.mem_singleton.mpr rfl) (Or.inl rfl)

/-- Counterexample to claim C7 as stated: a map whose second entry has an
empty key (a length-0 key) fails, but with the dangerous-characters message
of the first entry, which names none of the four shape constraints. -/
theorem c7_headers_shape_counterexample :
    shapeViolation "" "y" ∧ ("", "y") ∈ [("a$b", "x"), ("", "y")] ∧
    validateHeaders (some [("a$b", "x"), ("", "y")]) =
      Except.error "Header key contains potentially dangerous characters" ∧
    "Header key contains potentially dangerous characters" ≠
      "Header key must be a non-empty string" ∧
    "Header key contains potentially dangerous characters" ≠
      "Header value must be a non-empty string" ∧
    "Header key contains potentially dangerous characters" ≠
      "Header key exceeds maximum length of 256 characters" ∧
    "Header key contains potentially dangerous characters" ≠
      "Header value exceeds maximum length of 8192 characters" :=
  ⟨Or.inl rfl, by decide, by decide, by decide, by decide, by decide, by decide⟩

/-! ## Claim C5 -/

/-- Counterexample to claim C5 as stated: the value `Bearer token$(whoami)`
matches the `$(` injection shape, yet `validateHeaders` fails with the
dangerous-characters message of the earlier character-class check (the
dollar sign is itself a dangerous value character), not the
injection-pattern message.  The repository's own test suite asserts this
behaviour. -/
theorem c5_injection_counterexample :
    valueDollarSub ("Bearer token$(whoami)" : String).data = true ∧
    validateHeaders (some [("Authorization", "Bearer token$(whoami)")]) =
      Except.error "Header value contains potentially dangerous characters" ∧
    "Header value contains potentially dangerous characters" ≠
      "Header value contains potential injection pattern" :=
  ⟨by decide, by decide, by decide⟩

/-- Claim C5 (amended): for a header entry that passes the length and
character-class checks, a value matching the `;ident=` shape or an
unquoted `&&`/`||` shape is rejected with the injection-pattern message;
the `$(`/`${` shapes, by contrast, always contain the dangerous value
character `$` and are therefore always caught by the earlier
character-class check with its message instead. -/
theorem c5_injection_thm :
    (∀ k v rest, k ≠ "" → v ≠ "" →
      ¬ k.data.length > 256 → ¬ v.data.length > 8192 →
      k.data.any dangerousKeyChar = false → v.data.any dangerousValueChar = false →
      (valueSemiAssign v.data || valueAndAnd v.data || valueOrOr v.data) = true →
      validateHeaders (some ((k, v) :: rest)) =
        Except.error "Header value contains potential injection pattern") ∧
    (∀ v : String, valueDollarSub v.data = true → v.data.any dangerousValueChar = true) := by
  constructor
  · intro k v rest hk hv hklen hvlen hkchar hvchar hpat
    have hp : validateHeaderPair k v =
        Except.error "Header value contains potential injection pattern" := by
      unfold validateHeaderPair
      rw [if_neg hk, if_neg hv,
        if_neg (show ¬ k.data.length > MAX_HEADER_KEY_LENGTH from hklen),
        if_neg (show ¬ v.data.length > MAX_HEADER_VALUE_LENGTH from hvlen),
        if_neg (by simp [hkchar]), if_neg (by simp [hvchar]), if_pos ?_]
      revert hpat
      cases valueSemiAssign v.data <;> cases valueAndAnd v.data <;>
        cases valueOrOr v.data <;> simp
    simp [validateHeaders, validateHeadersList, hp]
  · intro v
    suffices hl : ∀ l : List Char, valueDollarSub l = true → l.any dangerousValueChar = true from
      hl v.data
    intro l hl
    induction l with
    | nil => cases hl
    | cons c cs ih =>
      rw [valueDollarSub] at hl ih
      rw [scanAny] at hl
      rw [Bool.or_eq_true] at hl
      rcases hl with h1 | h2
      · cases cs with
        | nil => cases h1
        | cons b bs =>
          rw [dollarSubAt, Bool.and_eq_true] at h1
          have hc : c = '$' := by simpa using h1.1
          simp [List.any_cons, hc, dangerousValueChar]
      · simp [List.any_cons, ih h2]

/-- Witness for C5 (amended): a value matching the variable-assignment
shape `; test=` and containing no dangerous value character draws the
injection-pattern message. -/
theorem c5_injection_witness :
    validateHeaders (some [("Custom-Header", "value; test=dangerous")]) =
      Except.error "Header value contains potential injection pattern" :=
  c5_injection_thm.1 "Custom-Header" "value; test=dangerous" [] (by decide) (by decide)
    (by decide) (by decide) (by decide) (by decide) (by decide)

/-! ## Curl pattern completeness lemmas

Each lemma shows that a dangerous separator shape present anywhere in the
command makes the corresponding regex matcher fire. -/

theorem semiSep_of_shape (pre : List Char) (c : Char) (post : List Char)
    (h1 : c ≠ '\'') (h2 : c ≠ '"') :
    testSemiSep (pre ++ ';' :: c :: post) = true := by
  unfold testSemiSep
  apply scanAny_append
  rw [scanAny]
  simp [semiSepAt, matchWsThenNonquote_cons c post h1 h2]

theorem pipeSep_of_shape (pre : List Char) (c : Char) (post : List Char)
    (h1 : c ≠ '\'') (h2 : c ≠ '"') :
    testPipeSep (pre ++ '|' :: c :: post) = true := by
  unfold testPipeSep
  apply scanAny_append
  rw [scanAny]
  simp [pipeSepAt, matchWsThenNonquote_cons c post h1 h2]

theorem andAndSep_of_shape (pre : List Char) (c : Char) (post : List Char)
    (h1 : c ≠ '\'') (h2 : c ≠ '"') :
    testAndAndSep (pre ++ '&' :: '&' :: c :: post) = true := by
  unfold testAndAndSep
  apply scanAny_append
  rw [scanAny]
  simp [andAndSepAt, matchWsThenNonquote_cons c post h1 h2]

theorem orOrSep_of_shape (pre : List Char) (c : Char) (post : List Char)
    (h1 : c ≠ '\'') (h2 : c ≠ '"') :
    testOrOrSep (pre ++ '|' :: '|' :: c :: post) = true := by
  unfold testOrOrSep
  apply scanAny_append
  rw [scanAny]
  simp [orOrSepAt, matchWsThenNonquote_cons c post h1 h2]

theorem backtickPair_of_shape (pre mid post : List Char) :
    testBacktickPair (pre ++ '\x60' :: (mid ++ '\x60' :: post)) = true := by
  unfold testBacktickPair
  apply scanAny_append
  rw [scanAny]
  simp [backtickPairAt, listHas_append_cons]

theorem dollarParen_of_shape (pre mid post : List Char) :
    testDollarParen (pre ++ '$' :: '(' :: (mid ++ ')' :: post)) = true := by
  unfold testDollarParen
  apply scanAny_append
  rw [scanAny]
  simp [dollarParenAt, listHas_append_cons]

/-! ## Claim C1 -/

/-- A command with an unquoted semicolon separating a second, single-quoted
command: written out as characters, `curl x;` followed by a quoted `rm`
with arguments. -/
def cmdUnquotedSemi : String :=
  String.mk ['c', 'u', 'r', 'l', ' ', 'x', ';', '\'', 'r', 'm', '\'', ' ',
    '-', 'r', 'f', ' ', '/', 't', 'm', 'p', '/', 'x']

/-- Counterexample to claim C1 as stated: two commands that contain an
unquoted `;` separator (semicolon outside every shell quote) yet are
accepted by `validateCurlCommand`, because the separator is immediately
followed by a quote character (first command) or ends the string (second
command).  The regex check therefore has false negatives for the listed
shapes. -/
theorem c1_curl_patterns_counterexample :
    (listStartsWith (jsTrim cmdUnquotedSemi.data) ("curl ".data) = true ∧
      hasUnquotedSemi cmdUnquotedSemi = true ∧
      validateCurlCommand cmdUnquotedSemi = Except.ok ()) ∧
    (hasUnquotedSemi "curl x;" = true ∧
      validateCurlCommand "curl x;" = Except.ok ()) :=
  ⟨⟨by decide, by decide, by decide⟩, ⟨by decide, by decide⟩⟩

/-- Claim C1 (amended): for every string whose trimmed form begins with
`curl `, `validateCurlCommand` rejects it with the dangerous-patterns
message whenever the command contains a `;` or `|` followed by a character
other than a quote, a `&&` or `||` followed by such a character, a pair of
backticks, or `$(` with a later closing parenthesis.  A separator at the
end of the string or immediately followed by a quote character is not
detected, which is what the counterexample forces the claim to concede. -/
theorem c1_curl_patterns_thm (cmd : String)
    (hstart : listStartsWith (jsTrim cmd.data) ("curl ".data) = true)
    (hshape :
      (∃ pre c post, cmd.data = pre ++ ';' :: c :: post ∧ c ≠ '\'' ∧ c ≠ '"') ∨
      (∃ pre c post, cmd.data = pre ++ '|' :: c :: post ∧ c ≠ '\'' ∧ c ≠ '"') ∨
      (∃ pre c post, cmd.data = pre ++ '&' :: '&' :: c :: post ∧ c ≠ '\'' ∧ c ≠ '"') ∨
      (∃ pre c post, cmd.data = pre ++ '|' :: '|' :: c :: post ∧ c ≠ '\'' ∧ c ≠ '"') ∨
      (∃ pre mid post, cmd.data = pre ++ '\x60' :: (mid ++ '\x60' :: post)) ∨
      (∃ pre mid post, cmd.data = pre ++ '$' :: '(' :: (mid ++ ')' :: post))) :
    validateCurlCommand cmd =
      Except.error "Curl command contains potentially dangerous patterns" := by
  have hne : cmd ≠ "" := by
    intro he
    rw [he] at hstart
    exact absurd hstart (by decide)
  have hdanger : anyCurlDanger cmd.data = true := by
    unfold anyCurlDanger
    rcases hshape with ⟨pre, c, post, he, h1, h2⟩ | ⟨pre, c, post, he, h1, h2⟩ |
      ⟨pre, c, post, he, h1, h2⟩ | ⟨pre, c, post, he, h1, h2⟩ |
      ⟨pre, mid, post, he⟩ | ⟨pre, mid, post, he⟩
    · rw [he]; simp [semiSep_of_shape pre c post h1 h2]
    · rw [he]; simp [pipeSep_of_shape pre c post h1 h2]
    · rw [he]; simp [andAndSep_of_shape pre c post h1 h2]
    · rw [he]; simp [orOrSep_of_shape pre c post h1 h2]
    · rw [he]; simp [backtickPair_of_shape pre mid post]
    · rw [he]; simp [dollarParen_of_shape pre mid post]
  unfold validateCurlCommand
  rw [if_neg hne, if_neg (by simp [hstart]), if_pos hdanger]

/-- Witness for C1 (amended): an unquoted `&&` chaining a second command is
rejected. -/
theorem c1_curl_patterns_witness :
    validateCurlCommand "curl a && b" =
      Except.error "Curl command contains potentially dangerous patterns" :=
  c1_curl_patterns_thm "curl a && b" (by decide)
    (Or.inr (Or.inr (Or.inl ⟨"curl a ".data, ' ', "b".data, by decide, by decide, by decide⟩)))

/-! ## Claim C9 -/

/-- Claim C9: every string whose trimmed form begins with `curl ` and that
matches none of the six dangerous patterns is accepted, even when it
contains the shell redirection characters `<` or `>` (no pattern mentions
them). -/
theorem c9_curl_redirect_thm (cmd : String)
    (hstart : listStartsWith (jsTrim cmd.data) ("curl ".data) = true)
    (hnone : anyCurlDanger cmd.data = false) :
    validateCurlCommand cmd = Except.ok () := by
  have hne : cmd ≠ "" := by
    intro he
    rw [he] at hstart
    exact absurd hstart (by decide)
  unfold validateCurlCommand
  rw [if_neg hne, if_neg (by simp [hstart]), if_neg (by simp [hnone])]

/-- Witness for C9: a command with an unquoted output redirection `>` to a
file is accepted. -/
theorem c9_curl_redirect_witness :
    listHas '>' ("curl https://api.figma.com/x > /tmp/out" : String).data = true ∧
    validateCurlCommand "curl https://api.figma.com/x > /tmp/out" = Except.ok () :=
  ⟨by decide,
    c9_curl_redirect_thm "curl https://api.figma.com/x > /tmp/out" (by decide) (by decide)⟩

/-! ## Claim C3 -/

/-- Claim C3: whenever URL validation or header validation fails, the
fetcher rejects immediately with `Security validation failed: ` followed by
the underlying validator message, and invokes neither the native fetch
collaborator nor the shell-exec collaborator (zero calls, no retry, no
fallback). -/
theorem c3_validation_gate_thm (url : String) (headers : Option (List (String × String)))
    (maxAttempts : Nat) (env : FetchCollab) :
    (∀ m, validateUrl url = Except.error m →
      fetchWithRetry url headers maxAttempts env =
        ⟨Except.error ("Security validation failed: " ++ m), 0, 0⟩) ∧
    (∀ m, validateUrl url = Except.ok () → validateHeaders headers = Except.error m →
      fetchWithRetry url headers maxAttempts env =
        ⟨Except.error ("Security validation failed: " ++ m), 0, 0⟩) := by
  constructor
  · intro m hm
    simp [fetchWithRetry, hm]
  · intro m hu hm
    simp [fetchWithRetry, hu, hm]

/-- Collaborator oracle whose fetch and exec always fail, used by the
fetcher witnesses. -/
def failingEnv : FetchCollab :=
  ⟨fun _ => Except.error "Fetch failed", fun _ => Except.error "exec failed"⟩

/-- Witness for C3: the spec's end-to-end example URL with an injected
`; rm -rf /` is rejected as a security failure with zero collaborator
invocations. -/
theorem c3_validation_gate_witness :
    fetchWithRetry "https://api.figma.com/files/abc; rm -rf /" none 3 failingEnv =
      ⟨Except.error ("Security validation failed: " ++
        "URL contains potentially dangerous characters"), 0, 0⟩ :=
  (c3_validation_gate_thm "https://api.figma.com/files/abc; rm -rf /" none 3 failingEnv).1
    "URL contains potentially dangerous characters" (by decide)

/-! ## Claim C6 -/

/-- When fetch and exec fail on every attempt and the assembled command
validates, the attempt loop performs exactly the budgeted number of
attempts and surfaces the exec error of the last attempt unchanged. -/
theorem runAttempts_all_fail (env : FetchCollab) (cmd : String) (fe ee : Nat → String)
    (hcmd : validateCurlCommand cmd = Except.ok ())
    (hfetch : ∀ i, env.fetchOutcome i = Except.error (fe i))
    (hexec : ∀ i, env.execOutcome i = Except.error (ee i)) :
    ∀ fuel i e0, runAttempts env cmd i (fuel + 1) e0 =
      ⟨Except.error (ee (i + fuel)), fuel + 1, fuel + 1⟩ := by
  intro fuel
  induction fuel with
  | zero =>
    intro i e0
    simp [runAttempts, hfetch i, hcmd, hexec i]
  | succ fuel ih =>
    intro i e0
    conv_lhs => rw [runAttempts]
    simp only [hfetch i, hcmd, hexec i]
    rw [ih (i + 1) (ee i)]
    have harith : i + 1 + fuel = i + (fuel + 1) := by omega
    simp [harith]

/-- Claim C6: with the native fetch collaborator failing on every attempt
and the shell-exec collaborator failing on every attempt (and the
assembled command passing validation), `fetchWithRetry` performs exactly
the configured number of attempts on both collaborators — no more and no
fewer — and fails with the exec error observed on the last attempt,
unwrapped (not a `Security validation failed` message). -/
theorem c6_retry_budget_thm (url : String) (headers : Option (List (String × String)))
    (env : FetchCollab) (n : Nat) (fe ee : Nat → String)
    (hu : validateUrl url = Except.ok ())
    (hh : validateHeaders headers = Except.ok ())
    (hcmd : validateCurlCommand (buildCurlCommand url headers) = Except.ok ())
    (hfetch : ∀ i, env.fetchOutcome i = Except.error (fe i))
    (hexec : ∀ i, env.execOutcome i = Except.error (ee i)) :
    fetchWithRetry url headers (n + 1) env = ⟨Except.error (ee n), n + 1, n + 1⟩ := by
  simp only [fetchWithRetry, hu, hh]
  have h := runAttempts_all_fail env (buildCurlCommand url headers) fe ee hcmd hfetch hexec
    n 0 "No attempts made"
  simpa using h

/-- Witness for C6: with a budget of three attempts against the failing
collaborators, both collaborators are invoked exactly three times and the
final error is the raw exec failure. -/
theorem c6_retry_budget_witness :
    fetchWithRetry "https://api.figma.com/v1/files/abc" none 3 failingEnv =
      ⟨Except.error "exec failed", 3, 3⟩ :=
  c6_retry_budget_thm "https://api.figma.com/v1/files/abc" none failingEnv 2
    (fun _ => "Fetch failed") (fun _ => "exec failed")
    (by decide) rfl (by decide) (fun _ => rfl) (fun _ => rfl)
